import Mathlib

/-!
Verification development for `parameters.py` (q2mm parameter selection).

The Python module selects parameter records from a force field, optionally
overrides equilibrium values with averages gathered from MacroModel `.mmo`
structure files, and checks whether selected parameters are in use.

We shallowly embed the relevant functions:
* `trim_params_by_type`  — lines 81–88
* `trim_params_by_file`  — lines 90–157 (selection-file parsing + matching)
* `gather_values`        — lines 159–184
* the averaging override and usage check inside `main` — lines 195–246

Numeric values are modelled as rationals (`ℚ`); Python dictionaries keyed by
force-field row are modelled as association lists with insertion-order
semantics.
-/

namespace Q2mm

/-- Modelled from the spec: a Parameter Record (the `datatypes` module that
defines the parameter class is outside the embedded source; §3 of the spec
gives its fields).  `allow_negative` models the Python attribute
`_allow_negative`, which is `None` (here `none`) until a selection file sets
it, and only ever set to `True` (here `some true`) or back to `None`. -/
structure Param where
  mm3_row : Int
  mm3_col : Int
  ptype : String
  value : ℚ
  allow_negative : Option Bool
  deriving DecidableEq, Repr

/-- The tuple `ALL_PARM_TYPES` from line 21 of the source. -/
def ALL_PARM_TYPES : List String :=
  ["ae", "af", "be", "bf", "df", "imp1", "imp2", "sb", "q", "vdwe", "vdwr"]

/-- Lines 81–88: `chosen_params = [x for x in params if x.ptype in ptypes]`. -/
def trim_params_by_type (params : List Param) (ptypes : List String) :
    List Param :=
  params.filter (fun x => ptypes.contains x.ptype)

/-! ### Selection-file parsing (lines 134–146) -/

/-- Model of `line.partition('#')[0]`: the characters before the first `#`. -/
def stripComment (line : List Char) : List Char :=
  line.takeWhile (fun c => c ≠ '#')

/-- Model of `line.split()`: split on runs of whitespace, dropping empty fields. -/
def tokens (line : List Char) : List String :=
  ((line.splitOnP Char.isWhitespace).filter (fun w => w ≠ [])).map
    (fun w => String.mk w)

/-- Digits-only string to `Nat` (`none` when empty or a non-digit occurs). -/
def digitsToNat : List Char → Option Nat
  | [] => none
  | cs =>
    if cs.all Char.isDigit then
      some (cs.foldl (fun a c => 10 * a + (c.toNat - Char.toNat '0')) 0)
    else
      none

/-- Python-2 `int(str)` on a whitespace-free token: an optional sign followed
by one or more decimal digits. -/
def pyInt (s : String) : Option Int :=
  match s.data with
  | '-' :: rest => (digitsToNat rest).map (fun n => -(n : Int))
  | '+' :: rest => (digitsToNat rest).map (fun n => (n : Int))
  | l => (digitsToNat l).map (fun n => (n : Int))

/-- A parsed selection-file directive (`temp_params` entry, line 146):
row, column, and the negative-values flag. -/
structure Directive where
  row : Int
  col : Int
  neg : Option Bool
  deriving DecidableEq, Repr

/-- The error taxonomy of the module.  `malformedSelectionLine` models the
`ValueError`/`IndexError` escaping `int(cols[0]), int(cols[1])` on line 139;
`missingRequiredInput` models the `AssertionError` on line 196. -/
inductive Err where
  | malformedSelectionLine
  | missingRequiredInput
  deriving DecidableEq, Repr

/-- Substring test `'neg' in arg` of line 143. -/
def containsNeg (arg : String) : Bool :=
  decide ("neg".data <:+: arg.data)

/-- Lines 135–146 for a single line of the selection file: strip the comment,
split into columns; an empty column list contributes nothing; otherwise the
first two columns must parse as integers (else the `int(...)` calls raise),
and any later column containing the substring `neg` sets the flag. -/
def parseSelectionLine (line : String) : Except Err (Option Directive) :=
  match tokens (stripComment line.data) with
  | [] => Except.ok none
  | [_] => Except.error Err.malformedSelectionLine
  | c0 :: c1 :: rest =>
    match pyInt c0, pyInt c1 with
    | some r, some c =>
      Except.ok (some
        { row := r, col := c,
          neg := if rest.any containsNeg then some true else none })
    | _, _ => Except.error Err.malformedSelectionLine

/-- The whole parsing loop (lines 135–146): lines are processed in order and
the first malformed line aborts with an error, as the Python exception would. -/
def parseSelectionLines : List String → Except Err (List Directive)
  | [] => Except.ok []
  | line :: rest =>
    match parseSelectionLine line with
    | Except.error e => Except.error e
    | Except.ok none => parseSelectionLines rest
    | Except.ok (some d) =>
      match parseSelectionLines rest with
      | Except.error e => Except.error e
      | Except.ok ds => Except.ok (d :: ds)

/-- The spec's malformedness condition for one line, stated independently of
the parser: a non-comment, non-blank line that does not yield at least two
integer tokens in its first two positions. -/
def malformedLine (line : String) : Bool :=
  match tokens (stripComment line.data) with
  | [] => false
  | [_] => true
  | c0 :: c1 :: _ => (pyInt c0).isNone || (pyInt c1).isNone

/-! ### Selection-file matching (lines 147–157)

The matching loop iterates over `params` (outer) and over `temp_params`
(inner, in file order).  Each match executes
`param._allow_negative = temp_param[2]` and `chosen_params.append(param)`.
The appended entries are references to the same mutable object, so after the
loop every appended copy shows the object's final state: the flag of the last
matching directive. -/

/-- The directives matching a given parameter, in file order
(`param.mm3_row == temp_param[0] and param.mm3_col == temp_param[1]`). -/
def matchingDirectives (dirs : List Directive) (p : Param) : List Directive :=
  dirs.filter (fun d => p.mm3_row = d.row ∧ p.mm3_col = d.col)

/-- The final state of a parameter object after the matching loop: each
matching directive assigns its flag in turn (line 153), so the last one wins;
a parameter with no matching directive is untouched. -/
def finalParam (dirs : List Directive) (p : Param) : Param :=
  (matchingDirectives dirs p).foldl
    (fun q d => { q with allow_negative := d.neg }) p

/-- The `chosen_params` list: each parameter contributes one entry per
matching directive (lines 148–154); all its entries alias the same mutated
object, hence all equal its final state. -/
def chosenOf (dirs : List Directive) (params : List Param) : List Param :=
  params.flatMap
    (fun p => (matchingDirectives dirs p).map (fun _ => finalParam dirs p))

/-- Lines 90–157, `trim_params_by_file`: parse the selection file (given as
its list of lines), then run the matching loop.  On success it returns the
parameter list after the in-place flag mutations together with
`chosen_params`; a malformed line raises before any matching happens, so the
error case carries no parameter state at all. -/
def trim_params_by_file (params : List Param) (fileLines : List String) :
    Except Err (List Param × List Param) :=
  match parseSelectionLines fileLines with
  | Except.error e => Except.error e
  | Except.ok dirs =>
    Except.ok (params.map (finalParam dirs), chosenOf dirs params)

/-! ### Observation aggregation (lines 159–184, `gather_values`) -/

/-- Modelled from the spec: a bond or angle observation exposed by the
`filetypes` structure parser (outside the embedded source): a force-field
row and an observed value. -/
structure Obs where
  ff_row : Int
  value : ℚ
  deriving DecidableEq, Repr

/-- Modelled from the spec: one structure of a MacroModel file, exposing its
ordered bond and angle observations. -/
structure MMStructure where
  bonds : List Obs
  angles : List Obs
  deriving DecidableEq, Repr

/-- Modelled from the spec: a parsed MacroModel `.mmo` file — an ordered
collection of structures. -/
structure MacroModel where
  structures : List MMStructure
  deriving DecidableEq, Repr

/-- A Python dictionary from force-field rows to lists of observed values,
as an insertion-ordered association list (keys are unique by construction:
`dictAppend` only ever appends a fresh key). -/
abbrev Dict : Type := List (Int × List ℚ)

/-- Lines 175–178 (and 180–183): `dic[row].append(value)` when the key is
present, `dic[row] = [value]` otherwise. -/
def dictAppend (d : Dict) (k : Int) (v : ℚ) : Dict :=
  if (List.any d (fun kv => kv.1 = k)) then
    List.map (fun kv => if kv.1 = k then (kv.1, kv.2 ++ [v]) else kv) d
  else
    d ++ [(k, [v])]

/-- Dictionary lookup: `d[k]` as an `Option` (first binding wins; keys are
unique anyway). -/
def dictGet : Dict → Int → Option (List ℚ)
  | [], _ => none
  | kv :: d, k => if kv.1 = k then some kv.2 else dictGet d k

/-- The keys of a dictionary (`d.keys()`). -/
def dictKeys (d : Dict) : List Int :=
  List.map Prod.fst d

/-- Fold one list of observations into a dictionary (the body of the
`for bond in structure.bonds` / `for angle in structure.angles` loops). -/
def gatherObs (d : Dict) (obs : List Obs) : Dict :=
  obs.foldl (fun d o => dictAppend d o.ff_row o.value) d

/-- The body of the `for structure in mmo.structures` loop: bonds into the
bond dictionary, then angles into the angle dictionary. -/
def structStep (acc : Dict × Dict) (s : MMStructure) : Dict × Dict :=
  (gatherObs acc.1 s.bonds, gatherObs acc.2 s.angles)

/-- Lines 159–184, `gather_values`: traverse the MacroModel files in order,
their structures in order, and within each structure first the bonds into
`bond_dic` and then the angles into `angle_dic`. -/
def gather_values (mmos : List MacroModel) : Dict × Dict :=
  mmos.foldl (fun acc mmo => mmo.structures.foldl structStep acc) ([], [])

/-- The bond observations of a list of MacroModel files in traversal order. -/
def bondTrace (mmos : List MacroModel) : List Obs :=
  mmos.flatMap (fun m => m.structures.flatMap (fun s => s.bonds))

/-- The angle observations in traversal order. -/
def angleTrace (mmos : List MacroModel) : List Obs :=
  mmos.flatMap (fun m => m.structures.flatMap (fun s => s.angles))

/-- The observed values tied to row `k` in a traversal-ordered observation
list. -/
def rowValues (trace : List Obs) (k : Int) : List ℚ :=
  (trace.filter (fun o => o.ff_row = k)).map Obs.value

/-- Append a batch of values to an optional existing binding: `none` with no
new values stays absent, otherwise the key is present with the accumulated
list. -/
def optAppend : Option (List ℚ) → List ℚ → Option (List ℚ)
  | none, [] => none
  | none, v :: vs => some (v :: vs)
  | some l, vs => some (l ++ vs)

/-! ### Usage check (lines 225–229) and averaging (lines 231–246) -/

/-- Lines 226–229: `all_rows = bond_dic.keys() + angle_dic.keys()`, then
report every chosen parameter whose `mm3_row` is not in `all_rows`. -/
def notInUse (params : List Param) (bond_dic angle_dic : Dict) : List Param :=
  let all_rows := List.append (dictKeys bond_dic) (dictKeys angle_dic)
  params.filter (fun p => ¬ (all_rows.contains p.mm3_row))

/-- Modelled from the spec: `np.mean` (numpy, outside this repository) is the
exact arithmetic mean `(v1 + ... + vn) / n`; we compute it over `ℚ`. -/
def mean (l : List ℚ) : ℚ :=
  l.sum / (l.length : ℚ)

/-- Lines 235–240: the per-row average table (`bond_avg` / `angle_avg`). -/
def avgTable (d : Dict) : List (Int × ℚ) :=
  List.map (fun kv => (kv.1, mean kv.2)) d

/-- Lookup in an average table (`row in avg` / `avg[row]` combined). -/
def avgGet : List (Int × ℚ) → Int → Option ℚ
  | [], _ => none
  | kv :: a, k => if kv.1 = k then some kv.2 else avgGet a k

/-- Line 243–244: `if param.ptype in ['be', 'ae'] and param.mm3_row in
bond_avg: param.value = bond_avg[param.mm3_row]`. -/
def bondPass (bond_avg : List (Int × ℚ)) (p : Param) : Param :=
  if (p.ptype = "be" ∨ p.ptype = "ae") then
    match avgGet bond_avg p.mm3_row with
    | some m => { p with value := m }
    | none => p
  else p

/-- Line 245–246: the same statement against `angle_avg`. -/
def anglePass (angle_avg : List (Int × ℚ)) (p : Param) : Param :=
  if (p.ptype = "be" ∨ p.ptype = "ae") then
    match avgGet angle_avg p.mm3_row with
    | some m => { p with value := m }
    | none => p
  else p

/-- Lines 242–246, the body of the update loop for one parameter: the two
`if` statements run in sequence, so the angle average is applied second and
wins when a row is in both tables. -/
def updateValue (bond_avg angle_avg : List (Int × ℚ)) (p : Param) : Param :=
  anglePass angle_avg (bondPass bond_avg p)

/-- The whole update loop of lines 242–246 over the chosen parameters. -/
def applyAverages (bond_dic angle_dic : Dict) (params : List Param) :
    List Param :=
  params.map (updateValue (avgTable bond_dic) (avgTable angle_dic))

/-! ### The `main` pipeline (lines 186–254)

`main` is modelled as a pure function of the parsed options and an
environment supplying what the external parsers would produce.  It returns
the trace of file-reading / exporting events it performed, in order, together
with either an error or its results, so that "raised before any file I/O"
is expressible as an empty trace. -/

/-- Parsed command-line options (the argparse surface of lines 50–78).
`mmo = []` models the absent/empty `--mmo` list; `pfile` carries the
selection file's lines when `--pfile` was given. -/
structure Opts where
  all : Bool
  average : Option String
  check : Bool
  mmo : List String
  printparams : Bool
  pfile : Option (List String)
  ptypes : List String

/-- What the external collaborators supply: the force field's parameter list
(`ff.params` after `import_ff`) and the parsed content of each `.mmo` file. -/
structure Env where
  ffparams : List Param
  mmoData : String → MacroModel

/-- File I/O events of `main`, in the order they would happen. -/
inductive Event where
  | readFF
  | readPFile
  | readMMO (name : String)
  | exportFF (name : String)
  deriving DecidableEq, Repr

/-- Results of a successful `main` run: the final parameter list (assigned
back to `ff.params`, line 253) and the parameters the usage check flagged. -/
structure MainResult where
  params : List Param
  flagged : List Param

/-- Lines 216–253: the part of `main` after the parameter lists are chosen.
Loads the `.mmo` files when needed, runs the usage check and the averaging
override, and exports when `--average` was given. -/
def mainTail (opts : Opts) (env : Env) (events : List Event)
    (params : List Param) : List Event × Except Err MainResult :=
  if ¬ opts.mmo.isEmpty ∨ opts.average.isSome ∨ opts.check then
    let events := events ++ opts.mmo.map Event.readMMO
    let tables := gather_values (opts.mmo.map env.mmoData)
    let flagged := if opts.check then notInUse params tables.1 tables.2 else []
    match opts.average with
    | some outName =>
      let params := applyAverages tables.1 tables.2 params
      (events ++ [Event.exportFF outName],
       Except.ok { params := params, flagged := flagged })
    | none => (events, Except.ok { params := params, flagged := flagged })
  else
    (events, Except.ok { params := params, flagged := [] })

/-- Lines 186–254, `main`.  The `assert opts.mmo` guard (lines 195–196) runs
before the force field is read (line 200), before by-type / by-file selection
(lines 210–213) and before any `.mmo` file is opened, so on that failure the
event trace is empty.  A malformed selection file aborts after the force
field and the selection file were read but before the `.mmo` step. -/
def main (opts : Opts) (env : Env) : List Event × Except Err MainResult :=
  if (opts.average.isSome ∨ opts.check) ∧ opts.mmo.isEmpty then
    ([], Except.error Err.missingRequiredInput)
  else
    let ptypes :=
      if opts.all then opts.ptypes ++ ALL_PARM_TYPES else opts.ptypes
    match opts.pfile with
    | none =>
      let params :=
        if ¬ ptypes.isEmpty then trim_params_by_type env.ffparams ptypes
        else []
      mainTail opts env [Event.readFF] params
    | some fileLines =>
      match trim_params_by_file env.ffparams fileLines with
      | Except.error e => ([Event.readFF, Event.readPFile], Except.error e)
      | Except.ok (newFF, chosen) =>
        -- the by-file flag mutations act on the same objects the by-type
        -- list references, so the by-type sublist is re-read from `newFF`
        let byType :=
          if ¬ ptypes.isEmpty then trim_params_by_type newFF ptypes else []
        mainTail opts env [Event.readFF, Event.readPFile] (byType ++ chosen)

/-! ## Lemmas about the dictionary operations -/

theorem dictGet_any (d : Dict) (k : Int) :
    (List.any d (fun kv => kv.1 = k)) = (dictGet d k).isSome := by
  induction d with
  | nil => rfl
  | cons kv d ih =>
    by_cases h : kv.1 = k
    · simp [dictGet, h]
    · simp [dictGet, h, ih]

theorem dictGet_mapUpdate_self (d : Dict) (k : Int) (v : ℚ) :
    dictGet
        (List.map (fun kv => if kv.1 = k then (kv.1, kv.2 ++ [v]) else kv) d)
        k
      = (dictGet d k).map (fun l => l ++ [v]) := by
  induction d with
  | nil => rfl
  | cons kv d ih =>
    by_cases h : kv.1 = k
    · simp [dictGet, h]
    · simp [dictGet, h, ih]

theorem dictGet_mapUpdate_ne (d : Dict) (k k' : Int) (v : ℚ) (h : k' ≠ k) :
    dictGet
        (List.map (fun kv => if kv.1 = k then (kv.1, kv.2 ++ [v]) else kv) d)
        k'
      = dictGet d k' := by
  induction d with
  | nil => rfl
  | cons kv d ih =>
    by_cases hk : kv.1 = k
    · have hne : ¬ k = k' := fun hh => h hh.symm
      simp [dictGet, hk, hne, ih]
    · simp only [List.map_cons, if_neg hk, dictGet, ih]

theorem dictGet_append_absent (d : Dict) (k : Int) (v : ℚ)
    (h : dictGet d k = none) :
    dictGet (d ++ [(k, [v])]) k = some [v] := by
  induction d with
  | nil => simp [dictGet]
  | cons kv d ih =>
    by_cases hk : kv.1 = k
    · rw [dictGet, if_pos hk] at h; cases h
    · rw [dictGet, if_neg hk] at h
      simpa [dictGet, hk] using ih h

theorem dictGet_append_ne (d : Dict) (k k' : Int) (v : ℚ) (h : k' ≠ k) :
    dictGet (d ++ [(k, [v])]) k' = dictGet d k' := by
  have hne : ¬ k = k' := fun hh => h hh.symm
  induction d with
  | nil => simp [dictGet, hne]
  | cons kv d ih => simp only [List.cons_append, dictGet, List.append_eq, ih]

theorem dictGet_dictAppend_self (d : Dict) (k : Int) (v : ℚ) :
    dictGet (dictAppend d k v) k = some ((dictGet d k).getD [] ++ [v]) := by
  unfold dictAppend
  cases hd : dictGet d k with
  | none =>
    have ha : (List.any d (fun kv => kv.1 = k)) = false := by
      rw [dictGet_any, hd]; rfl
    simp [ha, dictGet_append_absent d k v hd]
  | some l =>
    have ha : (List.any d (fun kv => kv.1 = k)) = true := by
      rw [dictGet_any, hd]; rfl
    simp [ha, dictGet_mapUpdate_self, hd]

theorem dictGet_dictAppend_ne (d : Dict) (k k' : Int) (v : ℚ) (h : k' ≠ k) :
    dictGet (dictAppend d k v) k' = dictGet d k' := by
  unfold dictAppend
  cases ha : (List.any d (fun kv => kv.1 = k)) with
  | true => simp [ha, dictGet_mapUpdate_ne d k k' v h]
  | false => simp [ha, dictGet_append_ne d k k' v h]

/-! ## Lemmas about the aggregator -/

theorem dictGet_gatherObs (obs : List Obs) (d : Dict) (k : Int) :
    dictGet (gatherObs d obs) k = optAppend (dictGet d k) (rowValues obs k) := by
  induction obs generalizing d with
  | nil =>
    cases h : dictGet d k <;> simp [gatherObs, rowValues, optAppend, h]
  | cons o obs ih =>
    have hstep : gatherObs d (o :: obs)
        = gatherObs (dictAppend d o.ff_row o.value) obs := rfl
    rw [hstep, ih]
    by_cases ho : o.ff_row = k
    · rw [ho, dictGet_dictAppend_self]
      cases hd : dictGet d k <;> simp [rowValues, ho, optAppend, hd]
    · rw [dictGet_dictAppend_ne d o.ff_row k o.value (fun hh => ho hh.symm)]
      simp [rowValues, ho]

theorem gatherObs_append (d : Dict) (l1 l2 : List Obs) :
    gatherObs d (l1 ++ l2) = gatherObs (gatherObs d l1) l2 := by
  simp [gatherObs, List.foldl_append]

theorem structStep_foldl (structs : List MMStructure) (acc : Dict × Dict) :
    structs.foldl structStep acc
      = (gatherObs acc.1 (structs.flatMap (fun s => s.bonds)),
         gatherObs acc.2 (structs.flatMap (fun s => s.angles))) := by
  induction structs generalizing acc with
  | nil => rfl
  | cons s ss ih =>
    simp only [List.foldl_cons, List.flatMap_cons, ih, structStep,
      gatherObs, List.foldl_append]

theorem gather_values_eq (mmos : List MacroModel) :
    gather_values mmos
      = (gatherObs [] (bondTrace mmos), gatherObs [] (angleTrace mmos)) := by
  suffices h : ∀ acc : Dict × Dict,
      mmos.foldl (fun acc m => m.structures.foldl structStep acc) acc
        = (gatherObs acc.1 (bondTrace mmos), gatherObs acc.2 (angleTrace mmos))
    from h ([], [])
  induction mmos with
  | nil => intro acc; rfl
  | cons m ms ih =>
    intro acc
    rw [List.foldl_cons, ih (m.structures.foldl structStep acc),
      structStep_foldl]
    simp only [bondTrace, angleTrace, List.flatMap_cons, gatherObs_append]

/-! ## Lemmas about the averaging passes -/

theorem avgGet_avgTable (d : Dict) (k : Int) :
    avgGet (avgTable d) k = (dictGet d k).map mean := by
  induction d with
  | nil => rfl
  | cons kv d ih =>
    by_cases h : kv.1 = k
    · simp [avgTable, avgGet, dictGet, h]
    · simpa [avgTable, avgGet, dictGet, h] using ih

theorem anglePass_some (angle_dic : Dict) (p : Param)
    (hp : p.ptype = "be" ∨ p.ptype = "ae") (vs : List ℚ)
    (hv : dictGet angle_dic p.mm3_row = some vs) :
    anglePass (avgTable angle_dic) p = { p with value := mean vs } := by
  unfold anglePass
  rw [if_pos hp, avgGet_avgTable, hv]
  rfl

theorem anglePass_absent (angle_dic : Dict) (p : Param)
    (hv : dictGet angle_dic p.mm3_row = none) :
    anglePass (avgTable angle_dic) p = p := by
  unfold anglePass
  rw [avgGet_avgTable, hv]
  simp

theorem anglePass_other (angle_avg : List (Int × ℚ)) (p : Param)
    (h1 : p.ptype ≠ "be") (h2 : p.ptype ≠ "ae") :
    anglePass angle_avg p = p := by
  unfold anglePass
  rw [if_neg]
  rintro (h | h) <;> [exact h1 h; exact h2 h]

theorem bondPass_eq_anglePass (a : List (Int × ℚ)) (p : Param) :
    bondPass a p = anglePass a p := rfl

theorem anglePass_fields (a : List (Int × ℚ)) (p : Param) :
    (anglePass a p).ptype = p.ptype ∧
    (anglePass a p).mm3_row = p.mm3_row := by
  unfold anglePass
  split
  · cases avgGet a p.mm3_row <;> simp
  · simp

/-- Claim C9: the observation aggregator yields exactly the traversal-ordered
values per row: a row is a key of the bond (resp. angle) table precisely
when it carries at least one bond (resp. angle) observation, and its list is
the raw sequence of that row's observed values in traversal order, values
appended on each occurrence, duplicates retained, no value altered. -/
theorem C9_aggregator_traversal (mmos : List MacroModel) (k : Int) :
    dictGet (gather_values mmos).1 k
      = (if rowValues (bondTrace mmos) k = [] then none
         else some (rowValues (bondTrace mmos) k)) ∧
    dictGet (gather_values mmos).2 k
      = (if rowValues (angleTrace mmos) k = [] then none
         else some (rowValues (angleTrace mmos) k)) := by
  rw [gather_values_eq]
  constructor
  · show dictGet (gatherObs [] (bondTrace mmos)) k = _
    rw [dictGet_gatherObs]
    cases rowValues (bondTrace mmos) k <;> simp [dictGet, optAppend]
  · show dictGet (gatherObs [] (angleTrace mmos)) k = _
    rw [dictGet_gatherObs]
    cases rowValues (angleTrace mmos) k <;> simp [dictGet, optAppend]

/-- Claim C1: for a chosen record of ptype `be` or `ae`, the averaging override
rewrites its value to the exact arithmetic mean of its row's observed
values — the angle-table mean when the row is an angle key, the bond-table
mean when it is a bond key only — and records of any other ptype are never
overwritten; on the spec's scenario (bond observations
`{1858 ↦ [1.360, 1.354]}`, empty angle table, chosen record
`(1858, 1, "be", 1.300)`) the resulting value is exactly `1.357`. -/
theorem C1_average_override :
    (∀ (bond_dic angle_dic : Dict) (p : Param),
      (p.ptype = "be" ∨ p.ptype = "ae") →
      (∀ vs, dictGet angle_dic p.mm3_row = some vs →
        (updateValue (avgTable bond_dic) (avgTable angle_dic) p).value
          = mean vs) ∧
      (∀ vs, dictGet bond_dic p.mm3_row = some vs →
        dictGet angle_dic p.mm3_row = none →
        (updateValue (avgTable bond_dic) (avgTable angle_dic) p).value
          = mean vs)) ∧
    (∀ (bond_dic angle_dic : Dict) (p : Param),
      p.ptype ≠ "be" → p.ptype ≠ "ae" →
      updateValue (avgTable bond_dic) (avgTable angle_dic) p = p) ∧
    (updateValue (avgTable [(1858, [1360/1000, 1354/1000])]) (avgTable [])
        { mm3_row := 1858, mm3_col := 1, ptype := "be", value := 1300/1000,
          allow_negative := none }).value = 1357/1000 := by
  refine ⟨fun bond_dic angle_dic p hp => ⟨fun vs hv => ?_, fun vs hv ha => ?_⟩,
    fun bond_dic angle_dic p h1 h2 => ?_, ?_⟩
  · unfold updateValue
    have hf := anglePass_fields (avgTable bond_dic) p
    rw [← bondPass_eq_anglePass] at hf
    rw [anglePass_some angle_dic (bondPass (avgTable bond_dic) p)
      (by rw [hf.1]; exact hp) vs (by rw [hf.2]; exact hv)]
  · unfold updateValue
    rw [bondPass_eq_anglePass, anglePass_some bond_dic p hp vs hv]
    have : dictGet angle_dic ({ p with value := mean vs } : Param).mm3_row
        = none := ha
    rw [anglePass_absent angle_dic _ this]
  · unfold updateValue
    rw [bondPass_eq_anglePass, anglePass_other _ p h1 h2,
      anglePass_other _ p h1 h2]
  · have hb : dictGet [((1858 : Int), [(1360 : ℚ)/1000, 1354/1000])] 1858
        = some [(1360 : ℚ)/1000, 1354/1000] := by
      simp [dictGet]
    unfold updateValue
    rw [bondPass_eq_anglePass,
      anglePass_some [((1858 : Int), [(1360 : ℚ)/1000, 1354/1000])]
        { mm3_row := 1858, mm3_col := 1, ptype := "be", value := 1300/1000,
          allow_negative := none } (Or.inl rfl) [(1360 : ℚ)/1000, 1354/1000]
        hb,
      anglePass_absent [] _ rfl]
    show mean [(1360 : ℚ)/1000, 1354/1000] = 1357/1000
    norm_num [mean]

theorem C1_average_override_witness :
    (updateValue (avgTable [(7, [1, 3])]) (avgTable [(7, [10, 20])])
        { mm3_row := 7, mm3_col := 1, ptype := "ae", value := 0,
          allow_negative := none }).value = mean [10, 20] :=
  (C1_average_override.1 [(7, [1, 3])] [(7, [10, 20])]
      { mm3_row := 7, mm3_col := 1, ptype := "ae", value := 0,
        allow_negative := none } (Or.inr rfl)).1 [10, 20] (by decide)

/-- Claim C3: when a row is a key of both aggregated tables, a chosen record of
ptype `be` or `ae` at that row first receives the bond-table mean (the bond
check runs first) and then ends with the angle-table mean, which is applied
second and wins. -/
theorem C3_angle_mean_wins (bond_dic angle_dic : Dict) (p : Param)
    (hp : p.ptype = "be" ∨ p.ptype = "ae") (vsb vsa : List ℚ)
    (hb : dictGet bond_dic p.mm3_row = some vsb)
    (ha : dictGet angle_dic p.mm3_row = some vsa) :
    (bondPass (avgTable bond_dic) p).value = mean vsb ∧
    (updateValue (avgTable bond_dic) (avgTable angle_dic) p).value
      = mean vsa := by
  constructor
  · rw [bondPass_eq_anglePass, anglePass_some bond_dic p hp vsb hb]
  · unfold updateValue
    rw [bondPass_eq_anglePass, anglePass_some bond_dic p hp vsb hb]
    rw [anglePass_some angle_dic { p with value := mean vsb } hp vsa ha]

theorem C3_angle_mean_wins_witness :
    (bondPass (avgTable [(7, [1, 3])])
        { mm3_row := 7, mm3_col := 1, ptype := "be", value := 0,
          allow_negative := none }).value = mean [1, 3] ∧
    (updateValue (avgTable [(7, [1, 3])]) (avgTable [(7, [10, 20])])
        { mm3_row := 7, mm3_col := 1, ptype := "be", value := 0,
          allow_negative := none }).value = mean [10, 20] :=
  C3_angle_mean_wins [(7, [1, 3])] [(7, [10, 20])]
    { mm3_row := 7, mm3_col := 1, ptype := "be", value := 0,
      allow_negative := none } (Or.inl rfl) [1, 3] [10, 20]
    (by decide) (by decide)

/-- Claim C8: the averaging override leaves a chosen record entirely unchanged
when its ptype is outside {`be`, `ae`}, or when its row is a key of neither
aggregated table — regardless of the tables' contents. -/
theorem C8_average_frame (bond_dic angle_dic : Dict) (p : Param)
    (h : (p.ptype ≠ "be" ∧ p.ptype ≠ "ae") ∨
      (dictGet bond_dic p.mm3_row = none ∧
       dictGet angle_dic p.mm3_row = none)) :
    updateValue (avgTable bond_dic) (avgTable angle_dic) p = p := by
  unfold updateValue
  rcases h with ⟨h1, h2⟩ | ⟨hb, ha⟩
  · rw [bondPass_eq_anglePass, anglePass_other _ p h1 h2,
      anglePass_other _ p h1 h2]
  · rw [bondPass_eq_anglePass, anglePass_absent bond_dic p hb,
      anglePass_absent angle_dic p ha]

theorem C8_average_frame_witness :
    updateValue (avgTable [(7, [1, 3])]) (avgTable [(7, [10, 20])])
        { mm3_row := 7, mm3_col := 2, ptype := "bf", value := 5,
          allow_negative := none }
      = { mm3_row := 7, mm3_col := 2, ptype := "bf", value := 5,
          allow_negative := none } :=
  C8_average_frame [(7, [1, 3])] [(7, [10, 20])]
    { mm3_row := 7, mm3_col := 2, ptype := "bf", value := 5,
      allow_negative := none }
    (Or.inl (by constructor <;> decide))

/-- Claim C7: the usage checker flags exactly the chosen records whose row is
absent from the union of the bond-table and angle-table row keys; the
column is never consulted, so a record sharing its row with any bond or
angle observation is never flagged. -/
theorem C7_usage_check (params : List Param) (bond_dic angle_dic : Dict)
    (p : Param) :
    (p ∈ notInUse params bond_dic angle_dic ↔
      p ∈ params ∧ p.mm3_row ∉ dictKeys bond_dic ∧
        p.mm3_row ∉ dictKeys angle_dic) ∧
    (p ∈ params →
      (p.mm3_row ∈ dictKeys bond_dic ∨ p.mm3_row ∈ dictKeys angle_dic) →
      p ∉ notInUse params bond_dic angle_dic) := by
  have hmain : p ∈ notInUse params bond_dic angle_dic ↔
      p ∈ params ∧ p.mm3_row ∉ dictKeys bond_dic ∧
        p.mm3_row ∉ dictKeys angle_dic := by
    simp [notInUse, List.mem_filter, List.contains, List.elem_iff,
      List.mem_append, not_or, and_assoc]
  refine ⟨hmain, fun hmem hrow hin => ?_⟩
  rcases (hmain.mp hin).2 with ⟨hb, ha⟩
  rcases hrow with h | h
  · exact hb h
  · exact ha h

theorem C7_usage_check_witness :
    ({ mm3_row := 100, mm3_col := 3, ptype := "q", value := 0,
       allow_negative := none } : Param)
      ∉ notInUse
          [{ mm3_row := 100, mm3_col := 3, ptype := "q", value := 0,
             allow_negative := none }]
          [((100 : Int), [(1 : ℚ)])] [] :=
  (C7_usage_check
      [{ mm3_row := 100, mm3_col := 3, ptype := "q", value := 0,
         allow_negative := none }]
      [((100 : Int), [(1 : ℚ)])] []
      { mm3_row := 100, mm3_col := 3, ptype := "q", value := 0,
        allow_negative := none }).2
    (by simp) (Or.inl (by simp [dictKeys]))

/-- Claim C4: by-type selection is exactly the order-preserving filter of the
record list by membership of the record's ptype in the requested set: the
result is a sublist of the input (stability), each record occurs in the
output as often as in the input when its ptype is requested and never
otherwise, and an empty requested set selects nothing (unknown ptype
strings likewise match nothing, with no error). -/
theorem C4_by_type (params : List Param) (ptypes : List String) :
    (trim_params_by_type params ptypes).Sublist params ∧
    (∀ p : Param, (trim_params_by_type params ptypes).count p
        = if p.ptype ∈ ptypes then params.count p else 0) ∧
    (ptypes = [] → trim_params_by_type params ptypes = []) := by
  refine ⟨List.filter_sublist params, fun p => ?_, fun h => ?_⟩
  · by_cases hp : p.ptype ∈ ptypes
    · rw [if_pos hp]
      exact List.count_filter (by simp [List.contains, List.elem_iff, hp])
    · rw [if_neg hp, List.count_eq_zero]
      intro hmem
      rw [trim_params_by_type, List.mem_filter] at hmem
      exact hp (by simpa [List.contains, List.elem_iff] using hmem.2)
  · subst h
    simp [trim_params_by_type]

theorem C4_by_type_witness :
    (trim_params_by_type
        [{ mm3_row := 1, mm3_col := 1, ptype := "be", value := 0,
           allow_negative := none }] [] = []) ∧
    (trim_params_by_type
        [{ mm3_row := 1, mm3_col := 1, ptype := "be", value := 0,
           allow_negative := none }] ["zz"]).count
        { mm3_row := 1, mm3_col := 1, ptype := "be", value := 0,
          allow_negative := none } = 0 :=
  ⟨(C4_by_type
      [{ mm3_row := 1, mm3_col := 1, ptype := "be", value := 0,
         allow_negative := none }] []).2.2 rfl,
   by
    have h := (C4_by_type
        [{ mm3_row := 1, mm3_col := 1, ptype := "be", value := 0,
           allow_negative := none }] ["zz"]).2.1
        { mm3_row := 1, mm3_col := 1, ptype := "be", value := 0,
          allow_negative := none }
    rw [h, if_neg (by simp)]⟩

/-! ## Lemmas about the by-file matching loop -/

theorem foldl_setNeg_getLast (ds : List Directive) (p : Param) (d : Directive)
    (h : ds.getLast? = some d) :
    ds.foldl (fun q e => { q with allow_negative := e.neg }) p
      = { p with allow_negative := d.neg } := by
  induction ds generalizing p with
  | nil => cases h
  | cons e ds ih =>
    cases ds with
    | nil =>
      simp only [List.getLast?_singleton, Option.some.injEq] at h
      subst h
      rfl
    | cons e2 ds2 =>
      rw [List.getLast?_cons_cons] at h
      exact ih { p with allow_negative := e.neg } h

theorem finalParam_getLast (dirs : List Directive) (p : Param) (d : Directive)
    (h : (matchingDirectives dirs p).getLast? = some d) :
    finalParam dirs p = { p with allow_negative := d.neg } :=
  foldl_setNeg_getLast (matchingDirectives dirs p) p d h

/-- Claim C2: in by-file selection, each record is appended to `chosen_params`
once per directive whose `(row, column)` exactly equals the record's
address — so the output length is the total match count, every output entry
comes from a record/directive pair with equal addresses (carrying the
mutated negative flag), and every matching pair contributes its record; on
the spec's scenario (`100 1`, `100 2 neg`, `200 1 # comment` against records
(100,1), (100,2), (200,1), (300,1)) the output is exactly the first three
records in order, with `allow_negative` set only on (100,2) and (300,1)
excluded. -/
theorem C2_by_file_matching :
    (∀ (params : List Param) (fileLines : List String)
        (dirs : List Directive) (newFF chosen : List Param),
      parseSelectionLines fileLines = Except.ok dirs →
      trim_params_by_file params fileLines = Except.ok (newFF, chosen) →
      chosen.length
          = (params.map (fun p => (matchingDirectives dirs p).length)).sum ∧
      (∀ q ∈ chosen, ∃ p ∈ params, ∃ d ∈ dirs,
        p.mm3_row = d.row ∧ p.mm3_col = d.col ∧ q = finalParam dirs p) ∧
      (∀ p ∈ params, ∀ d ∈ dirs,
        p.mm3_row = d.row → p.mm3_col = d.col →
        finalParam dirs p ∈ chosen)) ∧
    trim_params_by_file
        [{ mm3_row := 100, mm3_col := 1, ptype := "be", value := 0,
           allow_negative := none },
         { mm3_row := 100, mm3_col := 2, ptype := "bf", value := 0,
           allow_negative := none },
         { mm3_row := 200, mm3_col := 1, ptype := "ae", value := 0,
           allow_negative := none },
         { mm3_row := 300, mm3_col := 1, ptype := "ae", value := 0,
           allow_negative := none }]
        ["100 1", "100 2 neg", "200 1 # comment"]
      = Except.ok
          ([{ mm3_row := 100, mm3_col := 1, ptype := "be", value := 0,
              allow_negative := none },
            { mm3_row := 100, mm3_col := 2, ptype := "bf", value := 0,
              allow_negative := some true },
            { mm3_row := 200, mm3_col := 1, ptype := "ae", value := 0,
              allow_negative := none },
            { mm3_row := 300, mm3_col := 1, ptype := "ae", value := 0,
              allow_negative := none }],
           [{ mm3_row := 100, mm3_col := 1, ptype := "be", value := 0,
              allow_negative := none },
            { mm3_row := 100, mm3_col := 2, ptype := "bf", value := 0,
              allow_negative := some true },
            { mm3_row := 200, mm3_col := 1, ptype := "ae", value := 0,
              allow_negative := none }]) := by
  constructor
  · intro params fileLines dirs newFF chosen hparse htrim
    unfold trim_params_by_file at htrim
    rw [hparse] at htrim
    simp only [Except.ok.injEq, Prod.mk.injEq] at htrim
    obtain ⟨-, hchosen⟩ := htrim
    subst hchosen
    refine ⟨?_, ?_, ?_⟩
    · simp only [chosenOf]
      induction params with
      | nil => rfl
      | cons p ps ih =>
        simp only [List.flatMap_cons, List.length_append, List.length_map,
          List.map_cons, List.sum_cons, ih]
    · intro q hq
      simp only [chosenOf, List.mem_flatMap, List.mem_map] at hq
      obtain ⟨p, hp, d, hd, hq⟩ := hq
      simp only [matchingDirectives, List.mem_filter,
        decide_eq_true_eq] at hd
      exact ⟨p, hp, d, hd.1, hd.2.1, hd.2.2, hq.symm⟩
    · intro p hp d hd hr hc
      simp only [chosenOf, List.mem_flatMap, List.mem_map]
      refine ⟨p, hp, d, ?_, rfl⟩
      simp only [matchingDirectives, List.mem_filter, decide_eq_true_eq]
      exact ⟨hd, hr, hc⟩
  · rfl

theorem C2_by_file_matching_witness :
    ([{ mm3_row := 100, mm3_col := 1, ptype := "be", value := 0,
        allow_negative := none },
      { mm3_row := 100, mm3_col := 2, ptype := "bf", value := 0,
        allow_negative := some true },
      { mm3_row := 200, mm3_col := 1, ptype := "ae", value := 0,
        allow_negative := none }] : List Param).length
      = (([{ mm3_row := 100, mm3_col := 1, ptype := "be", value := 0,
             allow_negative := none },
           { mm3_row := 100, mm3_col := 2, ptype := "bf", value := 0,
             allow_negative := none },
           { mm3_row := 200, mm3_col := 1, ptype := "ae", value := 0,
             allow_negative := none },
           { mm3_row := 300, mm3_col := 1, ptype := "ae", value := 0,
             allow_negative := none }] : List Param).map
          (fun p => (matchingDirectives
            [{ row := 100, col := 1, neg := none },
             { row := 100, col := 2, neg := some true },
             { row := 200, col := 1, neg := none }] p).length)).sum :=
  (C2_by_file_matching.1
    [{ mm3_row := 100, mm3_col := 1, ptype := "be", value := 0,
       allow_negative := none },
     { mm3_row := 100, mm3_col := 2, ptype := "bf", value := 0,
       allow_negative := none },
     { mm3_row := 200, mm3_col := 1, ptype := "ae", value := 0,
       allow_negative := none },
     { mm3_row := 300, mm3_col := 1, ptype := "ae", value := 0,
       allow_negative := none }]
    ["100 1", "100 2 neg", "200 1 # comment"]
    [{ row := 100, col := 1, neg := none },
     { row := 100, col := 2, neg := some true },
     { row := 200, col := 1, neg := none }]
    [{ mm3_row := 100, mm3_col := 1, ptype := "be", value := 0,
       allow_negative := none },
     { mm3_row := 100, mm3_col := 2, ptype := "bf", value := 0,
       allow_negative := some true },
     { mm3_row := 200, mm3_col := 1, ptype := "ae", value := 0,
       allow_negative := none },
     { mm3_row := 300, mm3_col := 1, ptype := "ae", value := 0,
       allow_negative := none }]
    [{ mm3_row := 100, mm3_col := 1, ptype := "be", value := 0,
       allow_negative := none },
     { mm3_row := 100, mm3_col := 2, ptype := "bf", value := 0,
       allow_negative := some true },
     { mm3_row := 200, mm3_col := 1, ptype := "ae", value := 0,
       allow_negative := none }]
    (by rfl) (by rfl)).1

/-- Claim C10: when a record matches several selection-file directives, every
match overwrites its `allow_negative` flag, so the record ends with the flag
of the last matching directive in file order (a later directive without a
`neg` token resets the flag to unset), and all of the record's duplicate
inclusions in the output show that same final state, because they alias one
mutated object; scenario: directives `100 1 neg` then `100 1` leave the
record's flag unset and both inclusions identical. -/
theorem C10_last_match_wins :
    (∀ (dirs : List Directive) (p : Param) (d : Directive),
      (matchingDirectives dirs p).getLast? = some d →
      finalParam dirs p = { p with allow_negative := d.neg } ∧
      (matchingDirectives dirs p).map (fun _ => finalParam dirs p)
        = List.replicate (matchingDirectives dirs p).length
            { p with allow_negative := d.neg }) ∧
    trim_params_by_file
        [{ mm3_row := 100, mm3_col := 1, ptype := "be", value := 0,
           allow_negative := some true }]
        ["100 1 neg", "100 1"]
      = Except.ok
          ([{ mm3_row := 100, mm3_col := 1, ptype := "be", value := 0,
              allow_negative := none }],
           [{ mm3_row := 100, mm3_col := 1, ptype := "be", value := 0,
              allow_negative := none },
            { mm3_row := 100, mm3_col := 1, ptype := "be", value := 0,
              allow_negative := none }]) := by
  constructor
  · intro dirs p d h
    have hf := finalParam_getLast dirs p d h
    exact ⟨hf, by rw [hf, List.map_const']⟩
  · rfl

theorem C10_last_match_wins_witness :
    finalParam
        [{ row := 100, col := 1, neg := some true },
         { row := 100, col := 1, neg := none }]
        { mm3_row := 100, mm3_col := 1, ptype := "be", value := 0,
          allow_negative := some true }
      = { mm3_row := 100, mm3_col := 1, ptype := "be", value := 0,
          allow_negative := none } :=
  (C10_last_match_wins.1
    [{ row := 100, col := 1, neg := some true },
     { row := 100, col := 1, neg := none }]
    { mm3_row := 100, mm3_col := 1, ptype := "be", value := 0,
      allow_negative := some true }
    { row := 100, col := 1, neg := none } (by rfl)).1

/-! ## Lemmas about selection-file parsing -/

theorem parseSelectionLine_malformed (line : String)
    (h : malformedLine line = true) :
    parseSelectionLine line = Except.error Err.malformedSelectionLine := by
  cases htok : tokens (stripComment line.data) with
  | nil => simp [malformedLine, htok] at h
  | cons c0 rest =>
    cases rest with
    | nil => simp [parseSelectionLine, htok]
    | cons c1 rest2 =>
      cases h0 : pyInt c0 <;> cases h1 : pyInt c1 <;>
        simp [parseSelectionLine, htok, h0, h1] <;>
        simp [malformedLine, htok, h0, h1] at h

theorem parseSelectionLine_error_to (line : String) (e : Err)
    (h : parseSelectionLine line = Except.error e) :
    e = Err.malformedSelectionLine ∧ malformedLine line = true := by
  cases htok : tokens (stripComment line.data) with
  | nil => simp [parseSelectionLine, htok] at h
  | cons c0 rest =>
    cases rest with
    | nil =>
      simp [parseSelectionLine, htok] at h
      exact ⟨h.symm, by simp [malformedLine, htok]⟩
    | cons c1 rest2 =>
      cases h0 : pyInt c0 <;> cases h1 : pyInt c1 <;>
        simp [parseSelectionLine, htok, h0, h1] at h <;>
        exact ⟨h.symm, by simp [malformedLine, htok, h0, h1]⟩

theorem parseSelectionLines_error_iff (ls : List String) :
    ∀ e : Err,
      parseSelectionLines ls = Except.error e
        ↔ (e = Err.malformedSelectionLine ∧ ∃ l ∈ ls, malformedLine l = true) := by
  induction ls with
  | nil => intro e; simp [parseSelectionLines]
  | cons l ls ih =>
    intro e
    rw [parseSelectionLines]
    cases hl : parseSelectionLine l with
    | error e' =>
      have he' := parseSelectionLine_error_to l e' hl
      constructor
      · intro h
        injection h with h
        subst h
        exact ⟨he'.1, l, List.mem_cons_self l ls, he'.2⟩
      · rintro ⟨he, -⟩
        subst he
        rw [he'.1]
    | ok od =>
      have hnotmal : malformedLine l = false := by
        cases hm : malformedLine l
        · rfl
        · have hcontra := parseSelectionLine_malformed l hm
          rw [hl] at hcontra
          cases hcontra
      cases od with
      | none =>
        rw [ih e]
        simp [List.mem_cons, hnotmal]
      | some d =>
        cases hrest : parseSelectionLines ls with
        | error e2 =>
          have h2 := (ih e2).mp hrest
          constructor
          · intro h
            injection h with h
            subst h
            exact ⟨h2.1, h2.2.elim (fun l' hl' =>
              ⟨l', List.mem_cons_of_mem l hl'.1, hl'.2⟩)⟩
          · rintro ⟨he, -⟩
            subst he
            rw [h2.1]
        | ok ds =>
          simp only [List.mem_cons]
          constructor
          · intro h; cases h
          · rintro ⟨he, l', hmem | hmem, hmal⟩
            · subst hmem
              rw [hnotmal] at hmal
              cases hmal
            · have hcontra := (ih Err.malformedSelectionLine).mpr
                ⟨rfl, l', hmem, hmal⟩
              rw [hrest] at hcontra
              cases hcontra

/-- Claim C5: by-file selection fails with the malformed-selection-line condition
exactly when some non-comment, non-blank line of the selection file does not
yield two integer tokens in its first two positions; any failure is of that
kind, and a failure carries no result at all — no record is selected and no
record's negative flag is touched, since the matching loop only runs after
the whole file parses. -/
theorem C5_malformed_selection (params : List Param)
    (fileLines : List String) :
    (trim_params_by_file params fileLines
        = Except.error Err.malformedSelectionLine
      ↔ ∃ l ∈ fileLines, malformedLine l = true) ∧
    (∀ e, trim_params_by_file params fileLines = Except.error e →
      e = Err.malformedSelectionLine) := by
  have hmain : ∀ e, trim_params_by_file params fileLines = Except.error e
      ↔ parseSelectionLines fileLines = Except.error e := by
    intro e
    unfold trim_params_by_file
    cases parseSelectionLines fileLines <;> simp
  constructor
  · rw [hmain, parseSelectionLines_error_iff]
    simp
  · intro e he
    exact ((parseSelectionLines_error_iff fileLines e).mp
      ((hmain e).mp he)).1

theorem C5_malformed_selection_witness :
    trim_params_by_file [] ["100"]
      = Except.error Err.malformedSelectionLine :=
  (C5_malformed_selection [] ["100"]).1.mpr ⟨"100", by simp, by rfl⟩

/-- Claim C6: when averaging or usage-checking is requested and the structure-file
list is empty, `main` stops with the missing-required-input condition before
any file I/O at all: the event trace is empty, so the force field is not
read, no selection file is opened and no structure file is touched. -/
theorem C6_missing_structure_files (opts : Opts) (env : Env)
    (h1 : opts.average.isSome = true ∨ opts.check = true)
    (h2 : opts.mmo = []) :
    main opts env = ([], Except.error Err.missingRequiredInput) := by
  have hc : (opts.average.isSome = true ∨ opts.check = true) ∧
      opts.mmo.isEmpty = true := ⟨h1, by rw [h2]; rfl⟩
  unfold main
  rw [if_pos hc]

theorem C6_missing_structure_files_witness :
    main { all := false, average := some "out.fld", check := false,
           mmo := [], printparams := false, pfile := none, ptypes := [] }
        { ffparams := [], mmoData := fun _ => { structures := [] } }
      = ([], Except.error Err.missingRequiredInput) :=
  C6_missing_structure_files
    { all := false, average := some "out.fld", check := false,
      mmo := [], printparams := false, pfile := none, ptypes := [] }
    { ffparams := [], mmoData := fun _ => { structures := [] } }
    (Or.inl rfl) rfl

end Q2mm
